import Mathlib

/-!
Verification of the source-normalization and deduplication pipeline in
`src/make_feed.py` (a single-run feed aggregator).  The Python functions are
shallowly embedded as Lean definitions: external libraries (dateutil,
`datetime.strptime`, `datetime.now`) are modelled as fields of a `World`
record, BeautifulSoup element lookups are modelled as association lists, and
the stateful main loop becomes a fold over explicit accumulators.
-/

namespace MakeFeed

/-- Python `datetime`: either timezone-naive or timezone-aware.  Aware values
are normalized to their UTC instant.  `t` is an abstract linear time value. -/
inductive PyDateTime where
  | naive (t : Int)
  | aware (t : Int)
deriving DecidableEq

/-- Whether a `datetime` carries tzinfo. -/
def PyDateTime.isAware : PyDateTime → Bool
  | .naive _ => false
  | .aware _ => true

/-- Python comparability of two datetimes: comparing a naive datetime with an
aware one raises `TypeError`, so only same-kind pairs are comparable. -/
def comparableDT : PyDateTime → PyDateTime → Bool
  | .naive _, .naive _ => true
  | .aware _, .aware _ => true
  | _, _ => false

/-- The underlying time value, used as the sort key (meaningful only between
mutually comparable datetimes). -/
def dateKey : PyDateTime → Int
  | .naive t => t
  | .aware t => t

/-- Python `a or b` on strings: the empty string is falsy. -/
def pyOr (a b : String) : String := if a = "" then b else a

/-- Python truthiness of an optional string: both `None` and `""` are falsy;
returns the value only when truthy. -/
def truthyOpt : Option String → Option String
  | some t => if t = "" then none else some t
  | none => none

/-- Boolean form of `truthyOpt`. -/
def pyTruthy (o : Option String) : Bool := (truthyOpt o).isSome

/-- Python string slice `s[:n]`, by code point, modelled on the character
list underlying the string. -/
def pySliceStr (s : String) (n : Nat) : String := String.mk (s.data.take n)

/-- The normalized item record built by both extractors (lines 79-85 and
136-142 of make_feed.py). -/
structure Item where
  title : String
  link : String
  guid : String
  summary : String
  date : PyDateTime
deriving DecidableEq

/-- Outcomes of the external date libraries used by the extractors:
`dateutil` is `dateutil.parser.parse` (tolerant parse; `none` means it
raised), `strptime` is `datetime.strptime text format` (`none` means it
raised), and `nowT` is the time value of `datetime.now(timezone.utc)`,
which is always timezone-aware. -/
structure World where
  nowT : Int
  dateutil : String → Option PyDateTime
  strptime : String → String → Option PyDateTime

/-- `datetime.now(timezone.utc)` for this run. -/
def World.now (w : World) : PyDateTime := .aware w.nowT

/-! ### RSS extraction (`parse_rss`, lines 42-86) -/

/-- One `<link>` element of a feed entry: its `rel` attribute, `href`
attribute, and stripped text content. -/
structure LinkEl where
  rel : Option String
  href : Option String
  text : String
deriving DecidableEq

/-- One feed entry (an `<entry>` or `<item>` element) as seen by
`parse_rss`: each field holds the stripped text of the corresponding child
element when that element is present. -/
structure Entry where
  title : Option String
  links : List LinkEl
  idText : Option String
  guidText : Option String
  summaryText : Option String
  published : Option String
  updated : Option String
  pubDate : Option String
  dcDate : Option String
  dateField : Option String
deriving DecidableEq

/-- Lines 48-51 and 73-76: take the first link element and use its `href`
attribute or else its text; only when that value is falsy, fall back to the
`href` of a link element with `rel="alternate"`. -/
def rssLink (links : List LinkEl) : Option String :=
  let link1 : Option String :=
    match links.head? with
    | some lt => some (pyOr (lt.href.getD "") lt.text)
    | none => none
  if pyTruthy link1 then link1
  else
    match links.find? (fun lt => lt.rel == some "alternate") with
    | some alt => if (alt.href.getD "") = "" then link1 else some (alt.href.getD "")
    | none => link1

/-- First truthy value in a priority list of optional strings. -/
def firstTruthy : List (Option String) → Option String
  | [] => none
  | o :: rest =>
    match truthyOpt o with
    | some t => some t
    | none => firstTruthy rest

/-- Lines 59-64: the first date-bearing child element with truthy text, in
the fixed priority order published, updated, pubDate, dc:date, date. -/
def rssDateText (e : Entry) : Option String :=
  firstTruthy [e.published, e.updated, e.pubDate, e.dcDate, e.dateField]

/-- Lines 52-56: the guid candidate from the explicit id/guid elements.  An
`<id>` element, when present, shadows any `<guid>` element even if its text
is empty. -/
def rssIdGuid (e : Entry) : String :=
  match e.idText with
  | some t => t
  | none => e.guidText.getD ""

/-- Lines 65-71: tolerant parse of the found date text; a missing text or a
raising parse degrades to the current time. -/
def rssDate (w : World) (e : Entry) : PyDateTime :=
  match rssDateText e with
  | some t => (w.dateutil t).getD w.now
  | none => w.now

/-- Lines 47-85: build one item from one feed entry. -/
def rssExtractEntry (w : World) (e : Entry) : Item :=
  let link := rssLink e.links
  { title := pyOr (e.title.getD "") "(untitled)"
    link := link.getD ""
    guid := pyOr (rssIdGuid e) (pyOr (link.getD "") (pySliceStr (e.title.getD "") 80))
    summary := e.summaryText.getD ""
    date := rssDate w e }

/-- `parse_rss` over the list of entry elements found in the document. -/
def parse_rss (w : World) (entries : List Entry) : List Item :=
  entries.map (rssExtractEntry w)

/-! ### HTML extraction (`parse_html`, lines 88-143) -/

/-- A matched HTML element: its attributes and its flattened text
(`get_text(" ", strip=True)`). -/
structure Element where
  attrs : List (String × String)
  text : String
deriving DecidableEq

/-- `el.get(attr)`: `None` when the attribute is absent. -/
def Element.getAttr (el : Element) (a : String) : Option String :=
  (el.attrs.find? (fun p => p.fst == a)).map (·.snd)

/-- One block matched by `list_selector`, abstracted by the result of
`select_one` for each selector string that occurs in the configuration. -/
structure Block where
  sels : List (String × Element)
deriving DecidableEq

/-- `b.select_one(sel)` for a block. -/
def Block.selectOne (b : Block) (sel : String) : Option Element :=
  (b.sels.find? (fun p => p.fst == sel)).map (·.snd)

/-- The per-source configuration consumed by `parse_html`; every field is
optional in the YAML, and the code treats an empty string like an absent
field (Python truthiness). -/
structure HtmlCfg where
  base_url : Option String
  list_selector : Option String
  title_selector : Option String
  link_selector : Option String
  description_selector : Option String
  date_selector : Option String
  date_attr : Option String
  date_format : Option String
deriving DecidableEq

/-- Abstraction of `urllib.parse.urljoin`: an absolute href is returned
unchanged, a relative one is resolved against the base. -/
def urljoin (base href : String) : String :=
  if href.startsWith "http://" || href.startsWith "https://" then href else base ++ href

/-- Lines 97-98: resolved title text of a block, `None` when the selector is
absent or matches nothing. -/
def blockTitle (cfg : HtmlCfg) (b : Block) : Option String :=
  match truthyOpt cfg.title_selector with
  | some sel => (b.selectOne sel).map (·.text)
  | none => none

/-- Lines 100-105: resolved link of a block; a truthy `href` attribute is
joined against `base_url` (or the page URL when no base is configured). -/
def blockLink (cfg : HtmlCfg) (url : String) (b : Block) : Option String :=
  match truthyOpt cfg.link_selector with
  | none => none
  | some sel =>
    match b.selectOne sel with
    | none => none
    | some el =>
      match truthyOpt (el.getAttr "href") with
      | some href => some (urljoin (pyOr (cfg.base_url.getD "") url) href)
      | none => none

/-- Lines 107-111: resolved description text, empty by default. -/
def blockDesc (cfg : HtmlCfg) (b : Block) : String :=
  match truthyOpt cfg.description_selector with
  | some sel =>
    match b.selectOne sel with
    | some el => el.text
    | none => ""
  | none => ""

/-- Lines 113-120: the date text of a block: the configured attribute of the
matched date element when truthy, else the element text; `none` when the
selector is absent, nothing matches, or the final text is falsy. -/
def blockDateText (cfg : HtmlCfg) (b : Block) : Option String :=
  match truthyOpt cfg.date_selector with
  | none => none
  | some sel =>
    match b.selectOne sel with
    | none => none
    | some el =>
      let text0 : Option String :=
        match truthyOpt cfg.date_attr with
        | some a => el.getAttr a
        | none => none
      match truthyOpt text0 with
      | some t => some t
      | none => truthyOpt (some el.text)

/-- Lines 113-130: date resolution for a block.  When `date_format` is
configured, only `strptime` is attempted; when it raises, `dt` stays `None`
and falls directly to the current time — the tolerant parse is not retried. -/
def htmlDate (w : World) (cfg : HtmlCfg) (b : Block) : PyDateTime :=
  let dt : Option PyDateTime :=
    match blockDateText cfg b with
    | none => none
    | some t =>
      match truthyOpt cfg.date_format with
      | some fmt => w.strptime t fmt
      | none => w.dateutil t
  dt.getD w.now

/-- Lines 96-142: build one item from one block; a block whose resolved
title and link are both falsy is discarded (no item). -/
def extractBlock (w : World) (url : String) (cfg : HtmlCfg) (b : Block) : Option Item :=
  let title := blockTitle cfg b
  let link := blockLink cfg url b
  if pyTruthy title || pyTruthy link then
    some { title := pyOr (title.getD "") "(untitled)"
           link := link.getD ""
           guid := pyOr (link.getD "") (pySliceStr (title.getD "") 80)
           summary := blockDesc cfg b
           date := htmlDate w cfg b }
  else none

/-- Lines 88-143: `parse_html`.  The `list_selector` check happens before
any block is processed; a falsy selector raises `ValueError` for the whole
source.  `blocks` stands for the elements the selector would match. -/
def parse_html (w : World) (url : String) (cfg : HtmlCfg) (blocks : List Block) :
    Except String (List Item) :=
  match truthyOpt cfg.list_selector with
  | none => Except.error "Missing list_selector for HTML source"
  | some _ => Except.ok (blocks.filterMap (extractBlock w url cfg))

/-! ### State loading (`load_state`, lines 27-31) -/

/-- Lines 27-31: `load_state`.  `fileExists` is `os.path.exists(path)`;
`parsed` is the result of `json.load` on the file (`none` when the contents
are not valid JSON, in which case `json.load` raises and nothing catches
it).  The state is abstracted to its `seen` key. -/
def load_state (fileExists : Bool) (parsed : Option (List String)) :
    Except String (List String) :=
  if fileExists then
    match parsed with
    | some seen => Except.ok seen
    | none => Except.error "json.decoder.JSONDecodeError"
  else Except.ok []

/-! ### The main pipeline (`main`, lines 165-204) -/

/-- One configured source as consumed by the main loop: its `type` tag and
name and url from the YAML, and the outcome of the fetch/extract attempt
(the body of the `try` block) had it run. -/
structure Source where
  stype : Option String
  name : String
  url : String
  result : Except String (List Item)

/-- Lines 185-189: the per-item dedup step.  The accumulator carries the
growing output list and the `seen` set; an unseen guid is appended to the
output and marked seen immediately, a seen guid leaves both unchanged. -/
def dedupStep (acc : List Item × List String) (it : Item) : List Item × List String :=
  if it.guid ∈ acc.snd then acc else (acc.fst ++ [it], acc.snd ++ [it.guid])

/-- Rendering of the type tag inside the skip message (`None` for a missing
tag, as Python prints it). -/
def optTagStr : Option String → String
  | some t => t
  | none => "None"

/-- Line 183 message (quotes around the tag omitted). -/
def skipMsg (s : Source) : String :=
  "Skipping " ++ s.name ++ ": unknown type " ++ optTagStr s.stype

/-- Line 191 message. -/
def warnMsg (s : Source) (e : String) : String :=
  "[WARN] Failed to process " ++ s.name ++ " (" ++ s.url ++ "): " ++ e

/-- Lines 177-183: the two recognized type tags. -/
def isKnownType (t : Option String) : Bool := t == some "rss" || t == some "html"

/-- Lines 172-192: processing of one source.  The accumulator is
(collected items, seen set, stderr lines).  A known-type source with a
successful fetch/extract runs the dedup loop; a raising one appends a
warning; an unknown type appends a skip message; in the last two cases the
items and the seen set are untouched. -/
def sourceStep (acc : List Item × List String × List String) (s : Source) :
    List Item × List String × List String :=
  if isKnownType s.stype then
    match s.result with
    | Except.ok items =>
      ((items.foldl dedupStep (acc.fst, acc.snd.fst)).fst,
       (items.foldl dedupStep (acc.fst, acc.snd.fst)).snd,
       acc.snd.snd)
    | Except.error e => (acc.fst, acc.snd.fst, acc.snd.snd ++ [warnMsg s e])
  else (acc.fst, acc.snd.fst, acc.snd.snd ++ [skipMsg s])

/-- The whole source loop, starting from the loaded seen set. -/
def processAll (seen0 : List String) (srcs : List Source) :
    List Item × List String × List String :=
  srcs.foldl sourceStep ([], seen0, [])

/-- Line 194: `all_items.sort(key=lambda x: x["date"], reverse=True)` — a
stable descending sort by the date key. -/
def sortDesc (l : List Item) : List Item :=
  l.mergeSort (fun a b => decide (dateKey b.date ≤ dateKey a.date))

/-- Python list slice `l[:n]` for an integer bound (a negative bound drops
that many elements from the end). -/
def pySlice (n : Int) (l : List α) : List α :=
  if 0 ≤ n then l.take n.toNat else l.take (l.length - (-n).toNat)

/-- Line 195: `int(cfg.get("limit", 60))`. -/
def getLimit (c : Option Int) : Int := c.getD 60

/-- Lines 165-204 (pure core of `main`): loop over the sources, sort the
collected items by date descending, truncate to the limit.  Returns the
items handed to `build_feed`, the final seen set handed to `save_state`,
and the stderr lines. -/
def mainRun (seen0 : List String) (srcs : List Source) (limit : Int) :
    List Item × List String × List String :=
  let r := processAll seen0 srcs
  (pySlice limit (sortDesc r.fst), r.snd.fst, r.snd.snd)

/-! ### Derived descriptions of the loop used by the theorems -/

/-- The items the running-seen filter keeps, computed structurally: an item
is kept exactly when its guid is not in the seen set at the moment it is
processed, and its guid is added to the seen set immediately when kept. -/
def dedupNew (seen : List String) : List Item → List Item
  | [] => []
  | it :: rest =>
    if it.guid ∈ seen then dedupNew seen rest
    else it :: dedupNew (seen ++ [it.guid]) rest

/-- The concatenated item stream of the successfully extracted known-type
sources, in declaration order. -/
def okItems : List Source → List Item
  | [] => []
  | s :: rest =>
    (if isKnownType s.stype then
      match s.result with
      | Except.ok items => items
      | Except.error _ => []
     else []) ++ okItems rest

/-- The stderr lines the loop produces, in order. -/
def runLogs : List Source → List String
  | [] => []
  | s :: rest =>
    (if isKnownType s.stype then
      match s.result with
      | Except.ok _ => []
      | Except.error e => [warnMsg s e]
     else [skipMsg s]) ++ runLogs rest

/-! ### Lemmas about the dedup fold -/

lemma foldl_dedupStep (items : List Item) (out : List Item) (seen : List String) :
    items.foldl dedupStep (out, seen) =
      (out ++ dedupNew seen items, seen ++ (dedupNew seen items).map (·.guid)) := by
  induction items generalizing out seen with
  | nil => simp [dedupNew]
  | cons it rest ih =>
    by_cases h : it.guid ∈ seen
    · simp [dedupNew, dedupStep, h, ih]
    · simp [dedupNew, dedupStep, h, ih, List.append_assoc]

lemma dedupNew_append (xs ys : List Item) (seen : List String) :
    dedupNew seen (xs ++ ys) =
      dedupNew seen xs ++
        dedupNew (seen ++ (dedupNew seen xs).map (·.guid)) ys := by
  induction xs generalizing seen with
  | nil => simp [dedupNew]
  | cons it rest ih =>
    by_cases h : it.guid ∈ seen
    · simp [dedupNew, h, ih]
    · simp [dedupNew, h, ih, List.append_assoc]

lemma foldl_sourceStep (srcs : List Source) (out : List Item)
    (seen : List String) (log : List String) :
    srcs.foldl sourceStep (out, seen, log) =
      (out ++ dedupNew seen (okItems srcs),
       seen ++ (dedupNew seen (okItems srcs)).map (·.guid),
       log ++ runLogs srcs) := by
  induction srcs generalizing out seen log with
  | nil => simp [okItems, runLogs, dedupNew]
  | cons s rest ih =>
    cases hk : isKnownType s.stype with
    | false =>
      simp [sourceStep, hk, okItems, runLogs, ih, List.append_assoc]
    | true =>
      cases hr : s.result with
      | ok items =>
        simp [sourceStep, hk, hr, okItems, runLogs, foldl_dedupStep, ih,
          dedupNew_append, List.append_assoc]
      | error e =>
        simp [sourceStep, hk, hr, okItems, runLogs, ih, List.append_assoc]

lemma processAll_eq (seen0 : List String) (srcs : List Source) :
    processAll seen0 srcs =
      (dedupNew seen0 (okItems srcs),
       seen0 ++ (dedupNew seen0 (okItems srcs)).map (·.guid),
       runLogs srcs) := by
  simpa using foldl_sourceStep srcs [] seen0 []

/-! ### Properties of `dedupNew` -/

lemma mem_guid_dedupNew (seen : List String) (items : List Item) (g : String) :
    g ∈ (dedupNew seen items).map (·.guid) ↔
      g ∉ seen ∧ g ∈ items.map (·.guid) := by
  induction items generalizing seen with
  | nil => simp [dedupNew]
  | cons it rest ih =>
    by_cases h : it.guid ∈ seen
    · simp only [dedupNew, h, if_true, ih, List.map_cons, List.mem_cons]
      constructor
      · rintro ⟨hns, hmem⟩; exact ⟨hns, Or.inr hmem⟩
      · rintro ⟨hns, hg | hmem⟩
        · exact absurd (hg ▸ h) hns
        · exact ⟨hns, hmem⟩
    · have hsplit : ∀ x : String, x ∈ seen ++ [it.guid] ↔ x ∈ seen ∨ x = it.guid := by
        intro x; simp
      simp only [dedupNew, h, if_false, List.map_cons, List.mem_cons, ih]
      constructor
      · rintro (hg | ⟨hns, hmem⟩)
        · exact ⟨hg ▸ h, Or.inl hg⟩
        · rw [hsplit] at hns
          push_neg at hns
          exact ⟨hns.1, Or.inr hmem⟩
      · rintro ⟨hns, hg | hmem⟩
        · exact Or.inl hg
        · by_cases hgeq : g = it.guid
          · exact Or.inl hgeq
          · refine Or.inr ⟨?_, hmem⟩
            rw [hsplit]
            push_neg
            exact ⟨hns, hgeq⟩

lemma dedupNew_guid_nodup (seen : List String) (items : List Item) :
    ((dedupNew seen items).map (·.guid)).Nodup := by
  induction items generalizing seen with
  | nil => simp [dedupNew]
  | cons it rest ih =>
    by_cases h : it.guid ∈ seen
    · simpa [dedupNew, h] using ih seen
    · simp only [dedupNew, h, if_false, List.map_cons, List.nodup_cons]
      refine ⟨fun hmem => ?_, ih _⟩
      have := (mem_guid_dedupNew _ _ _).mp hmem
      exact this.1 (by simp)

lemma dedupNew_first (seen : List String) (items : List Item) :
    ∀ it ∈ dedupNew seen items,
      it.guid ∉ seen ∧ items.find? (fun x => x.guid == it.guid) = some it := by
  induction items generalizing seen with
  | nil => simp [dedupNew]
  | cons a rest ih =>
    intro it hmem
    by_cases h : a.guid ∈ seen
    · rw [dedupNew, if_pos h] at hmem
      obtain ⟨h1, h2⟩ := ih seen it hmem
      have hne : (a.guid == it.guid) = false := by
        simp only [beq_eq_false_iff_ne, ne_eq]
        intro hc
        exact h1 (hc ▸ h)
      rw [List.find?_cons, hne]
      exact ⟨h1, h2⟩
    · rw [dedupNew, if_neg h] at hmem
      rcases List.mem_cons.mp hmem with heq | hmem'
      · subst heq
        refine ⟨h, ?_⟩
        rw [List.find?_cons]
        simp
      · obtain ⟨h1, h2⟩ := ih (seen ++ [a.guid]) it hmem'
        have hgne : it.guid ≠ a.guid := by
          intro hc
          exact h1 (by simp [hc])
        refine ⟨fun hc => h1 (by simp [hc]), ?_⟩
        have hne : (a.guid == it.guid) = false := by
          simp only [beq_eq_false_iff_ne, ne_eq]
          exact fun hc => hgne hc.symm
        rw [List.find?_cons, hne]
        exact h2

/-! ### Helper lemmas -/

lemma pyTruthy_iff (o : Option String) : pyTruthy o = true ↔ o.getD "" ≠ "" := by
  cases o with
  | none => simp [pyTruthy, truthyOpt]
  | some s => by_cases h : s = "" <;> simp [pyTruthy, truthyOpt, h]

lemma pySliceStr_ne_empty (s : String) (h : s ≠ "") : pySliceStr s 80 ≠ "" := by
  intro hc
  apply h
  have hd : (s.data.take 80) = ("" : String).data := congrArg String.data hc
  have hnil : s.data.take 80 = [] := hd
  have hsd : s.data = [] := by
    cases hs : s.data with
    | nil => rfl
    | cons a l =>
      rw [hs] at hnil
      simp at hnil
  cases s with
  | mk d => cases hsd; rfl

lemma sortDesc_pairwise (l : List Item) :
    (sortDesc l).Pairwise (fun a b => dateKey b.date ≤ dateKey a.date) := by
  have h := @List.sorted_mergeSort Item
    (fun a b => decide (dateKey b.date ≤ dateKey a.date))
    (fun a b c h1 h2 => by
      simp only [decide_eq_true_eq] at h1 h2 ⊢
      exact le_trans h2 h1)
    (fun a b => by
      simp only [Bool.or_eq_true, decide_eq_true_eq]
      exact le_total _ _)
    l
  exact h.imp (fun hab => by simpa using hab)

/-! ### Concrete inputs used by the witnesses (the scenario of spec section 8:
two sources, identifiers a1 a2 a3 from source A, b1 b2 from source B, with b1
already seen) -/

def wItemA1 : Item :=
  { title := "A1", link := "", guid := "a1", summary := "", date := .aware 3 }

def wItemA2 : Item :=
  { title := "A2", link := "", guid := "a2", summary := "", date := .aware 2 }

def wItemA3 : Item :=
  { title := "A3", link := "", guid := "a3", summary := "", date := .aware 1 }

def wItemB1 : Item :=
  { title := "B1", link := "", guid := "b1", summary := "", date := .aware 5 }

def wItemB2 : Item :=
  { title := "B2", link := "", guid := "b2", summary := "", date := .aware 4 }

def wSrcA : Source :=
  { stype := some "rss", name := "A", url := "uA",
    result := Except.ok [wItemA1, wItemA2, wItemA3] }

def wSrcB : Source :=
  { stype := some "html", name := "B", url := "uB",
    result := Except.ok [wItemB1, wItemB2] }

def wSeen0 : List String := ["b1"]

def wSrcs : List Source := [wSrcA, wSrcB]

/-! ### The claims -/

/-- Claim C1: in every run, an extracted item is appended to the output
accumulation if and only if its guid is not in the seen set at the moment it
is processed, and its guid is marked seen immediately upon being kept; when
the same guid occurs several times within one run (sources in declared
order), exactly the first occurrence is kept.  Stated as: the collected
output is exactly the running-seen filter `dedupNew` of the concatenated
per-source item stream, a guid is emitted iff it is new to this run and not
previously seen, emitted guids are pairwise distinct, and every emitted item
is the first item of the stream bearing its guid. -/
theorem claim_C1 (seen0 : List String) (srcs : List Source) (g : String)
    (it : Item) (hit : it ∈ (processAll seen0 srcs).fst) :
    (processAll seen0 srcs).fst = dedupNew seen0 (okItems srcs)
    ∧ (g ∈ ((processAll seen0 srcs).fst).map (·.guid) ↔
        g ∉ seen0 ∧ g ∈ (okItems srcs).map (·.guid))
    ∧ (((processAll seen0 srcs).fst).map (·.guid)).Nodup
    ∧ it.guid ∉ seen0
    ∧ (okItems srcs).find? (fun x => x.guid == it.guid) = some it := by
  have hp := processAll_eq seen0 srcs
  have hfst : (processAll seen0 srcs).fst = dedupNew seen0 (okItems srcs) := by
    rw [hp]
  rw [hfst] at hit ⊢
  exact ⟨rfl, mem_guid_dedupNew _ _ _, dedupNew_guid_nodup _ _,
    (dedupNew_first _ _ it hit).1, (dedupNew_first _ _ it hit).2⟩

theorem claim_C1_witness :
    (processAll wSeen0 wSrcs).fst = dedupNew wSeen0 (okItems wSrcs)
    ∧ ("a1" ∈ ((processAll wSeen0 wSrcs).fst).map (·.guid) ↔
        "a1" ∉ wSeen0 ∧ "a1" ∈ (okItems wSrcs).map (·.guid))
    ∧ (((processAll wSeen0 wSrcs).fst).map (·.guid)).Nodup
    ∧ wItemA1.guid ∉ wSeen0
    ∧ (okItems wSrcs).find? (fun x => x.guid == wItemA1.guid) = some wItemA1 :=
  claim_C1 wSeen0 wSrcs "a1" wItemA1 (by decide)

/-- Claim C4: at the end of every successful run the persisted seen set
equals the seen set loaded at run start plus the guids of all items kept by
the dedup filter — including items later dropped by truncation: the
persisted seen set does not depend on the limit. -/
theorem claim_C4 (seen0 : List String) (srcs : List Source) (l1 l2 : Int)
    (g : String) :
    (mainRun seen0 srcs l1).snd.fst
      = seen0 ++ ((processAll seen0 srcs).fst).map (·.guid)
    ∧ (g ∈ (mainRun seen0 srcs l1).snd.fst ↔
        g ∈ seen0 ∨ g ∈ ((processAll seen0 srcs).fst).map (·.guid))
    ∧ (mainRun seen0 srcs l1).snd.fst = (mainRun seen0 srcs l2).snd.fst := by
  have hm : ∀ l : Int, (mainRun seen0 srcs l).snd.fst
      = (processAll seen0 srcs).snd.fst := fun _ => rfl
  have hp := processAll_eq seen0 srcs
  refine ⟨?_, ?_, by rw [hm, hm]⟩
  · rw [hm, hp]
  · rw [hm, hp]
    simp [List.mem_append]

/-- Claim C5: after the descending-by-timestamp sort, the pipeline hands
exactly the first `limit` entries of the sorted collected list to the feed
writer; their number is `min limit n`; the sorted list is a permutation of
the collected list; every dropped item has a timestamp no newer than every
kept one; and the default limit is 60.  The comparability hypothesis
mirrors the precondition under which the Python sort is defined. -/
theorem claim_C5 (seen0 : List String) (srcs : List Source) (limit : Int)
    (hlim : 0 ≤ limit)
    (haware : ∀ it ∈ (processAll seen0 srcs).fst, it.date.isAware = true) :
    (mainRun seen0 srcs limit).fst
      = (sortDesc (processAll seen0 srcs).fst).take limit.toNat
    ∧ (mainRun seen0 srcs limit).fst.length
      = min limit.toNat (processAll seen0 srcs).fst.length
    ∧ (sortDesc (processAll seen0 srcs).fst).Perm (processAll seen0 srcs).fst
    ∧ (∀ x ∈ (mainRun seen0 srcs limit).fst,
        ∀ y ∈ (sortDesc (processAll seen0 srcs).fst).drop limit.toNat,
          dateKey y.date ≤ dateKey x.date)
    ∧ getLimit none = 60 := by
  have hfst : (mainRun seen0 srcs limit).fst
      = (sortDesc (processAll seen0 srcs).fst).take limit.toNat := by
    show pySlice limit (sortDesc (processAll seen0 srcs).fst) = _
    rw [pySlice, if_pos hlim]
  have hlen : (sortDesc (processAll seen0 srcs).fst).length
      = (processAll seen0 srcs).fst.length :=
    (List.mergeSort_perm _ _).length_eq
  refine ⟨hfst, ?_, List.mergeSort_perm _ _, ?_, rfl⟩
  · rw [hfst, List.length_take, hlen]
  · intro x hx y hy
    have hpw := sortDesc_pairwise (processAll seen0 srcs).fst
    rw [← List.take_append_drop limit.toNat
      (sortDesc (processAll seen0 srcs).fst)] at hpw
    have h3 := (List.pairwise_append.mp hpw).2.2
    rw [hfst] at hx
    exact h3 x hx y hy

theorem claim_C5_witness :
    (mainRun wSeen0 wSrcs 2).fst
      = (sortDesc (processAll wSeen0 wSrcs).fst).take (2 : Int).toNat
    ∧ (mainRun wSeen0 wSrcs 2).fst.length
      = min (2 : Int).toNat (processAll wSeen0 wSrcs).fst.length
    ∧ (sortDesc (processAll wSeen0 wSrcs).fst).Perm (processAll wSeen0 wSrcs).fst
    ∧ (∀ x ∈ (mainRun wSeen0 wSrcs 2).fst,
        ∀ y ∈ (sortDesc (processAll wSeen0 wSrcs).fst).drop (2 : Int).toNat,
          dateKey y.date ≤ dateKey x.date)
    ∧ getLimit none = 60 :=
  claim_C5 wSeen0 wSrcs 2 (by decide) (by decide)

/-! ### Claim C2: timestamps are not always timezone-aware -/

/-- A world in which the tolerant parser returns a timezone-naive datetime
for a date string that carries no offset (the documented behaviour of
`dateutil.parser.parse` on such strings). -/
def w2 : World :=
  { nowT := 0,
    dateutil := fun s =>
      if s = "2024-01-02 03:04:05" then some (.naive 100) else none,
    strptime := fun _ _ => none }

def e2a : Entry :=
  { title := some "A", links := [], idText := some "a1", guidText := none,
    summaryText := none, published := some "2024-01-02 03:04:05",
    updated := none, pubDate := none, dcDate := none, dateField := none }

def e2b : Entry :=
  { title := some "B", links := [], idText := some "a2", guidText := none,
    summaryText := none, published := none, updated := none, pubDate := none,
    dcDate := none, dateField := none }

/-- Claim C2 is violated by the code: `parse_rss` stores the result of the
tolerant parse without attaching a timezone, so an entry whose date string
has no offset yields a naive timestamp while an entry with no date yields
an aware one (`datetime.now(timezone.utc)`), and the two are not mutually
comparable (the Python sort raises `TypeError` on them). -/
theorem claim_C2 :
    (parse_rss w2 [e2a, e2b]).map (·.date)
      = [PyDateTime.naive 100, PyDateTime.aware 0]
    ∧ comparableDT (PyDateTime.naive 100) (PyDateTime.aware 0) = false
    ∧ PyDateTime.isAware (PyDateTime.naive 100) = false := by
  decide

/-! ### Claim C3: identifier derivation -/

def w0 : World :=
  { nowT := 0, dateutil := fun _ => none, strptime := fun _ _ => none }

def e3Empty : Entry :=
  { title := none, links := [], idText := none, guidText := none,
    summaryText := none, published := none, updated := none, pubDate := none,
    dcDate := none, dateField := none }

/-- Counterexample to claim C3: an RSS entry with no title, no link and no
id/guid element is still emitted, and its identifier is the empty string —
the `"(untitled)"` title fallback is applied to the title field only, after
the guid has already been computed from the raw (absent) title. -/
theorem cex_C3 :
    parse_rss w0 [e3Empty]
      = [{ title := "(untitled)", link := "", guid := "", summary := "",
           date := PyDateTime.aware 0 }]
    ∧ (rssExtractEntry w0 e3Empty).guid = "" := by
  decide

/-- Claim C3 amended: the identifier equals the first non-empty value of
(explicit id/guid text, resolved link, first 80 characters of the raw
title); for HTML items this is never empty (a kept block has a truthy title
or link), but for RSS entries it can be empty, as the counterexample
shows. -/
theorem claim_C3 (w : World) (url : String) (e : Entry) (cfg : HtmlCfg)
    (b : Block) (it : Item)
    (hkeep : extractBlock w url cfg b = some it) :
    (rssExtractEntry w e).guid
      = pyOr (rssIdGuid e)
          (pyOr ((rssLink e.links).getD "") (pySliceStr (e.title.getD "") 80))
    ∧ it.guid ≠ "" := by
  refine ⟨rfl, ?_⟩
  rw [extractBlock] at hkeep
  by_cases hcond : (pyTruthy (blockTitle cfg b) || pyTruthy (blockLink cfg url b)) = true
  · rw [if_pos hcond] at hkeep
    have hgid : it.guid
        = pyOr ((blockLink cfg url b).getD "")
            (pySliceStr ((blockTitle cfg b).getD "") 80) := by
      cases hkeep
      rfl
    rw [hgid, pyOr]
    by_cases hl : (blockLink cfg url b).getD "" = ""
    · rw [if_pos hl]
      have ht : pyTruthy (blockTitle cfg b) = true := by
        rcases Bool.or_eq_true_iff.mp hcond with h | h
        · exact h
        · exact absurd ((pyTruthy_iff _).mp h) (by simp [hl])
      exact pySliceStr_ne_empty _ ((pyTruthy_iff _).mp ht)
    · rw [if_neg hl]
      exact hl
  · rw [if_neg hcond] at hkeep
    exact absurd hkeep (by simp)

def wCfgKeep : HtmlCfg :=
  { base_url := none, list_selector := some "li", title_selector := some "h2",
    link_selector := none, description_selector := none, date_selector := none,
    date_attr := none, date_format := none }

def wBlkKeep : Block := { sels := [("h2", { attrs := [], text := "T" })] }

def wItKeep : Item :=
  { title := "T", link := "", guid := pySliceStr "T" 80, summary := "",
    date := PyDateTime.aware 0 }

theorem claim_C3_witness :
    (rssExtractEntry w0 e2a).guid
      = pyOr (rssIdGuid e2a)
          (pyOr ((rssLink e2a.links).getD "")
            (pySliceStr (e2a.title.getD "") 80))
    ∧ wItKeep.guid ≠ "" :=
  claim_C3 w0 "u" e2a wCfgKeep wBlkKeep wItKeep (by decide)

/-! ### Claim C6: HTML source without list_selector -/

/-- An HTML source as the main loop sees it: type tag `"html"`, a name, a
url, and the outcome of `parse_html`. -/
def htmlSource (nm url : String) (r : Except String (List Item)) : Source :=
  { stype := some "html", name := nm, url := url, result := r }

/-- Claim C6: an HTML source configured without a (truthy) `list_selector`
fails with the configuration error before any block is processed (the
result does not depend on the blocks at all), the pipeline records a warning
naming the source, the source contributes no items and marks nothing seen,
and the rest of the run proceeds unchanged. -/
theorem claim_C6 (w : World) (url nm : String) (cfg : HtmlCfg)
    (blocks blocks2 : List Block) (rest : List Source) (seen0 : List String)
    (h : truthyOpt cfg.list_selector = none) :
    parse_html w url cfg blocks
      = Except.error "Missing list_selector for HTML source"
    ∧ parse_html w url cfg blocks2 = parse_html w url cfg blocks
    ∧ (processAll seen0
          (htmlSource nm url (parse_html w url cfg blocks) :: rest)).fst
        = (processAll seen0 rest).fst
    ∧ (processAll seen0
          (htmlSource nm url (parse_html w url cfg blocks) :: rest)).snd.fst
        = (processAll seen0 rest).snd.fst
    ∧ (processAll seen0
          (htmlSource nm url (parse_html w url cfg blocks) :: rest)).snd.snd
        = warnMsg (htmlSource nm url (parse_html w url cfg blocks))
            "Missing list_selector for HTML source"
          :: (processAll seen0 rest).snd.snd := by
  have hp : parse_html w url cfg blocks
      = Except.error "Missing list_selector for HTML source" := by
    rw [parse_html, h]
  have hp2 : parse_html w url cfg blocks2
      = Except.error "Missing list_selector for HTML source" := by
    rw [parse_html, h]
  refine ⟨hp, hp2.trans hp.symm, ?_, ?_, ?_⟩
  · rw [processAll_eq, processAll_eq]
    simp [okItems, isKnownType, hp, htmlSource]
  · rw [processAll_eq, processAll_eq]
    simp [okItems, isKnownType, hp, htmlSource]
  · rw [processAll_eq, processAll_eq]
    simp [runLogs, isKnownType, hp, htmlSource]

def cfgNoSel : HtmlCfg :=
  { base_url := none, list_selector := none, title_selector := none,
    link_selector := none, description_selector := none, date_selector := none,
    date_attr := none, date_format := none }

theorem claim_C6_witness :
    parse_html w0 "u" cfgNoSel []
      = Except.error "Missing list_selector for HTML source"
    ∧ parse_html w0 "u" cfgNoSel [wBlkKeep] = parse_html w0 "u" cfgNoSel []
    ∧ (processAll wSeen0
          (htmlSource "H" "u" (parse_html w0 "u" cfgNoSel []) :: wSrcs)).fst
        = (processAll wSeen0 wSrcs).fst
    ∧ (processAll wSeen0
          (htmlSource "H" "u" (parse_html w0 "u" cfgNoSel []) :: wSrcs)).snd.fst
        = (processAll wSeen0 wSrcs).snd.fst
    ∧ (processAll wSeen0
          (htmlSource "H" "u" (parse_html w0 "u" cfgNoSel []) :: wSrcs)).snd.snd
        = warnMsg (htmlSource "H" "u" (parse_html w0 "u" cfgNoSel []))
            "Missing list_selector for HTML source"
          :: (processAll wSeen0 wSrcs).snd.snd :=
  claim_C6 w0 "u" "H" cfgNoSel [] [wBlkKeep] wSrcs wSeen0 (by decide)

/-! ### Claim C7: fixed date_format failure does not fall back to the
tolerant parse -/

/-- A world in which the fixed-format parse always raises while the
tolerant parse succeeds with a value distinct from the current time. -/
def w7 : World :=
  { nowT := 0, dateutil := fun _ => some (.aware 5),
    strptime := fun _ _ => none }

def cfg7 : HtmlCfg :=
  { base_url := none, list_selector := some "li", title_selector := some "h2",
    link_selector := none, description_selector := none,
    date_selector := some "time", date_attr := none,
    date_format := some "fmtY" }

def blk7 : Block :=
  { sels := [("time", { attrs := [], text := "rawdate" }),
             ("h2", { attrs := [], text := "T7" })] }

/-- Counterexample to claim C7: with a configured `date_format` whose exact
parse fails on the extracted date text, the timestamp becomes the current
time even though the tolerant parse of the same text would have succeeded
with a different value — the tolerant parse is never attempted. -/
theorem cex_C7 :
    htmlDate w7 cfg7 blk7 = PyDateTime.aware 0
    ∧ blockDateText cfg7 blk7 = some "rawdate"
    ∧ w7.strptime "rawdate" "fmtY" = none
    ∧ w7.dateutil "rawdate" = some (PyDateTime.aware 5)
    ∧ PyDateTime.aware 5 ≠ PyDateTime.aware 0 := by
  decide

/-- Claim C7 amended: when `date_format` is configured and the exact-format
parse of the date text fails, the timestamp becomes the current time
directly (the tolerant parse is not attempted); the entry itself is never
dropped because of the malformed date — a block is discarded exactly when
both its resolved title and resolved link are falsy, independently of the
date. -/
theorem claim_C7 (w : World) (url : String) (cfg : HtmlCfg) (b : Block)
    (t fmt : String)
    (hfmt : truthyOpt cfg.date_format = some fmt)
    (htext : blockDateText cfg b = some t)
    (hfail : w.strptime t fmt = none) :
    htmlDate w cfg b = w.now
    ∧ (extractBlock w url cfg b = none ↔
        (pyTruthy (blockTitle cfg b) = false
          ∧ pyTruthy (blockLink cfg url b) = false)) := by
  constructor
  · rw [htmlDate, htext, hfmt]
    simp [hfail]
  · rw [extractBlock]
    by_cases h1 : pyTruthy (blockTitle cfg b) = true
      <;> by_cases h2 : pyTruthy (blockLink cfg url b) = true
      <;> simp [h1, h2]

theorem claim_C7_witness :
    htmlDate w7 cfg7 blk7 = w7.now
    ∧ (extractBlock w7 "u" cfg7 blk7 = none ↔
        (pyTruthy (blockTitle cfg7 blk7) = false
          ∧ pyTruthy (blockLink cfg7 "u" blk7) = false)) :=
  claim_C7 w7 "u" cfg7 blk7 "rawdate" "fmtY" (by decide) (by decide) (by decide)

/-! ### Claim C8: link preference order in parse_rss -/

def links8 : List LinkEl :=
  [{ rel := some "self", href := some "http://self", text := "" },
   { rel := some "alternate", href := some "http://alt", text := "" }]

def e8 : Entry :=
  { title := some "T", links := links8, idText := none, guidText := none,
    summaryText := none, published := none, updated := none, pubDate := none,
    dcDate := none, dateField := none }

/-- Modelled after the spec sentence for C8 (it does not match the code and
exists only for the comparison): the resolved link prefers the href of a
link element with alternate relation when one is present; only otherwise is
any link element href attribute or text content used. -/
def specAltPreferredLink (links : List LinkEl) : Option String :=
  match links.find? (fun lt => lt.rel == some "alternate"
      && !((lt.href.getD "") == "")) with
  | some alt => alt.href
  | none =>
    match links.head? with
    | some lt => some (pyOr (lt.href.getD "") lt.text)
    | none => none

/-- Counterexample to claim C8: an entry whose first link element is a
rel="self" link with an href, followed by a rel="alternate" link, resolves
to the first link href — not to the alternate one the claim prescribes. -/
theorem cex_C8 :
    (rssExtractEntry w0 e8).link = "http://self"
    ∧ specAltPreferredLink links8 = some "http://alt"
    ∧ ("http://self" : String) ≠ "http://alt" := by
  decide

/-- Claim C8 amended: the resolved link is the first link element
href-or-text whenever that value is truthy; only when it is falsy does the
code fall back to the href of a rel="alternate" link element (keeping the
falsy first value when the alternate is absent or its href is falsy). -/
theorem claim_C8 (w : World) (e : Entry) (lt0 : LinkEl)
    (hhead : e.links.head? = some lt0) :
    (rssExtractEntry w e).link =
      (if pyOr (lt0.href.getD "") lt0.text = "" then
        (match e.links.find? (fun lt => lt.rel == some "alternate") with
         | some alt =>
            if (alt.href.getD "") = "" then "" else alt.href.getD ""
         | none => "")
       else pyOr (lt0.href.getD "") lt0.text) := by
  have hl : (rssExtractEntry w e).link = (rssLink e.links).getD "" := rfl
  rw [hl, rssLink, hhead]
  by_cases hv : pyOr (lt0.href.getD "") lt0.text = ""
  · rw [if_pos hv]
    have htr : pyTruthy (some (pyOr (lt0.href.getD "") lt0.text)) = false := by
      simp [pyTruthy, truthyOpt, hv]
    rw [htr]
    simp only [Bool.false_eq_true, if_false]
    cases hfind : e.links.find? (fun lt => lt.rel == some "alternate") with
    | none => simp [hv]
    | some alt =>
      by_cases ha : (alt.href.getD "") = ""
      · simp [ha, hv]
      · simp [ha]
  · rw [if_neg hv]
    have htr : pyTruthy (some (pyOr (lt0.href.getD "") lt0.text)) = true := by
      simp [pyTruthy, truthyOpt, hv]
    rw [htr]
    simp

theorem claim_C8_witness :
    (rssExtractEntry w0 e8).link =
      (if pyOr ((LinkEl.mk (some "self") (some "http://self") "").href.getD "")
            (LinkEl.mk (some "self") (some "http://self") "").text = "" then
        (match e8.links.find? (fun lt => lt.rel == some "alternate") with
         | some alt =>
            if (alt.href.getD "") = "" then "" else alt.href.getD ""
         | none => "")
       else pyOr ((LinkEl.mk (some "self") (some "http://self") "").href.getD "")
         (LinkEl.mk (some "self") (some "http://self") "").text) :=
  claim_C8 w0 e8 (LinkEl.mk (some "self") (some "http://self") "") (by decide)

/-! ### Claim C9: corrupt state file -/

/-- Counterexample to claim C9: when the state file exists but its contents
do not parse as JSON, `load_state` raises (nothing catches the
`json.load` error), rather than yielding an empty seen set. -/
theorem cex_C9 :
    load_state true none = Except.error "json.decoder.JSONDecodeError"
    ∧ load_state true none ≠ Except.ok ([] : List String) :=
  ⟨rfl, fun h => Except.noConfusion h⟩

/-- Claim C9 amended: a missing state file yields an empty seen set and the
run proceeds; an existing file with valid JSON yields its seen set; but an
existing file that fails JSON parsing raises out of `load_state`, failing
the run at startup. -/
theorem claim_C9 (parsed : Option (List String)) (seen : List String) :
    load_state false parsed = Except.ok []
    ∧ load_state true (some seen) = Except.ok seen
    ∧ load_state true none = Except.error "json.decoder.JSONDecodeError" :=
  ⟨rfl, rfl, rfl⟩

/-! ### Claim C10: unknown source type -/

/-- Claim C10: a source whose type tag is neither rss nor html makes the
loop print a skip message to stderr, contribute no items, mark no guids as
seen, and continue with the remaining sources unchanged. -/
theorem claim_C10 (s : Source) (rest : List Source) (seen0 : List String)
    (out : List Item) (seen log : List String)
    (h : isKnownType s.stype = false) :
    sourceStep (out, seen, log) s = (out, seen, log ++ [skipMsg s])
    ∧ (processAll seen0 (s :: rest)).fst = (processAll seen0 rest).fst
    ∧ (processAll seen0 (s :: rest)).snd.fst
        = (processAll seen0 rest).snd.fst
    ∧ (processAll seen0 (s :: rest)).snd.snd
        = skipMsg s :: (processAll seen0 rest).snd.snd := by
  refine ⟨by simp [sourceStep, h], ?_, ?_, ?_⟩
  · rw [processAll_eq, processAll_eq]
    simp [okItems, h]
  · rw [processAll_eq, processAll_eq]
    simp [okItems, h]
  · rw [processAll_eq, processAll_eq]
    simp [runLogs, h]

def srcUnknown : Source :=
  { stype := some "atom", name := "X", url := "uX", result := Except.ok [] }

theorem claim_C10_witness :
    sourceStep ([], wSeen0, []) srcUnknown
      = ([], wSeen0, [] ++ [skipMsg srcUnknown])
    ∧ (processAll wSeen0 (srcUnknown :: wSrcs)).fst
        = (processAll wSeen0 wSrcs).fst
    ∧ (processAll wSeen0 (srcUnknown :: wSrcs)).snd.fst
        = (processAll wSeen0 wSrcs).snd.fst
    ∧ (processAll wSeen0 (srcUnknown :: wSrcs)).snd.snd
        = skipMsg srcUnknown :: (processAll wSeen0 wSrcs).snd.snd :=
  claim_C10 srcUnknown wSrcs wSeen0 [] wSeen0 [] (by decide)

end MakeFeed
